import Mathlib

/-!
Verification of the MoE communication layer (`colossalai/moe/_operation.py`).

The embedding translates the rank-local control flow of each operation and,
for the collective primitives, the group-level semantics of the underlying
`torch.distributed` calls: a tensor is modelled by its shape, a flat list of
rational entries and its autograd flag; token payloads moved by all-to-all are
modelled as lists of rows (one list per rank).  External collaborators
(the communication transport and the accelerated MoE kernel) are taken as
parameters, so every theorem quantifies over them.
-/

namespace MoeOp

/-! ## Rows and split-size lists (uneven all-to-all machinery) -/

/-- Split a flat list of rows into chunks of the given sizes, as
`torch.distributed.all_to_all_single` does with `input_split_sizes`:
chunk `i` holds the next `sizes[i]` rows. -/
def splitWithSizes {α : Type} : List Nat → List α → List (List α)
  | [], _ => []
  | n :: ns, xs => xs.take n :: splitWithSizes ns (xs.drop n)

theorem length_splitWithSizes {α : Type} (ns : List Nat) (xs : List α) :
    (splitWithSizes ns xs).length = ns.length := by
  induction ns generalizing xs with
  | nil => rfl
  | cons n ns ih => simp [splitWithSizes, ih]

theorem join_splitWithSizes {α : Type} (ns : List Nat) (xs : List α)
    (h : ns.sum = xs.length) : (splitWithSizes ns xs).flatten = xs := by
  induction ns generalizing xs with
  | nil =>
    simp only [List.sum_nil] at h
    simp [splitWithSizes, (List.eq_nil_of_length_eq_zero h.symm)]
  | cons n ns ih =>
    simp only [List.sum_cons] at h
    have hn : n ≤ xs.length := by omega
    have hd : ns.sum = (xs.drop n).length := by
      rw [List.length_drop]; omega
    simp [splitWithSizes, List.flatten, ih _ hd, List.take_append_drop]

theorem map_length_splitWithSizes {α : Type} (ns : List Nat) (xs : List α)
    (h : ns.sum = xs.length) : (splitWithSizes ns xs).map List.length = ns := by
  induction ns generalizing xs with
  | nil => rfl
  | cons n ns ih =>
    simp only [List.sum_cons] at h
    have hn : n ≤ xs.length := by omega
    have hd : ns.sum = (xs.drop n).length := by
      rw [List.length_drop]; omega
    simp [splitWithSizes, ih _ hd, List.length_take, Nat.min_eq_left hn]

theorem splitWithSizes_join {α : Type} (ps : List (List α)) :
    splitWithSizes (ps.map List.length) ps.flatten = ps := by
  induction ps with
  | nil => rfl
  | cons p ps ih =>
    simp only [List.map_cons, List.flatten_cons, splitWithSizes]
    rw [List.take_left, List.drop_left, ih]

theorem ext_getD {α : Type} (l1 l2 : List α) (d : α) (hl : l1.length = l2.length)
    (h : ∀ i, i < l1.length → l1.getD i d = l2.getD i d) : l1 = l2 := by
  apply List.ext_getElem hl
  intro i h1 h2
  rw [← List.getD_eq_getElem l1 d h1, ← List.getD_eq_getElem l2 d h2]
  exact h i h1

theorem getD_map_in {α β : Type} (f : α → β) (l : List α) (i : Nat) (d : α) (db : β)
    (h : i < l.length) : (l.map f).getD i db = f (l.getD i d) := by
  have h2 : i < (l.map f).length := by rw [List.length_map]; exact h
  rw [List.getD_eq_getElem _ _ h2, List.getD_eq_getElem _ _ h, List.getElem_map]

theorem getD_map_range {β : Type} (f : Nat → β) (n i : Nat) (db : β) (h : i < n) :
    ((List.range n).map f).getD i db = f i := by
  have h1 : i < (List.range n).length := by rw [List.length_range]; exact h
  rw [getD_map_in f (List.range n) i 0 db h1,
    List.getD_eq_getElem _ _ h1, List.getElem_range]

theorem getD_zipWith_in {α β γ : Type} (f : α → β → γ) (as : List α) (bs : List β)
    (i : Nat) (da : α) (db : β) (dc : γ) (ha : i < as.length) (hb : i < bs.length) :
    (List.zipWith f as bs).getD i dc = f (as.getD i da) (bs.getD i db) := by
  have h : i < (List.zipWith f as bs).length := by
    rw [List.length_zipWith]; exact lt_min ha hb
  rw [List.getD_eq_getElem _ _ h, List.getD_eq_getElem _ _ ha,
    List.getD_eq_getElem _ _ hb, List.getElem_zipWith]

/-! ## Group-level semantics of dist.all_to_all_single

`_operation.py` invokes `dist.all_to_all_single(output, input,
output_split_sizes, input_split_sizes, group)` (the external transport).
Its group-level semantics: each rank splits its rows by its
`input_split_sizes`, chunk `j` goes to rank `j`, and each rank's output is
the concatenation, in rank order, of the chunks addressed to it. -/

/-- Entry `r` is rank `r`'s input rows split by rank `r`'s split-size list. -/
def chunkMatrix {α : Type} (sizes : List (List Nat)) (inputs : List (List α)) :
    List (List (List α)) :=
  List.zipWith splitWithSizes sizes inputs

/-- The rows rank `r` receives: every rank's chunk number `r`, concatenated
in rank order. -/
def recvRows {α : Type} (M : List (List (List α))) (r : Nat) : List α :=
  (M.map (fun chunks => chunks.getD r [])).flatten

/-- Group-level semantics of `dist.all_to_all_single`: `inputs` holds every
rank's local rows, `input_split_sizes` every rank's split-size list, and the
result holds every rank's output rows. -/
def dist_all_to_all {α : Type} (inputs : List (List α))
    (input_split_sizes : List (List Nat)) : List (List α) :=
  (List.range inputs.length).map (recvRows (chunkMatrix input_split_sizes inputs))

theorem length_dist_all_to_all {α : Type} (inputs : List (List α))
    (s : List (List Nat)) : (dist_all_to_all inputs s).length = inputs.length := by
  simp [dist_all_to_all]

theorem getD_dist_all_to_all {α : Type} (inputs : List (List α))
    (s : List (List Nat)) (r : Nat) (hr : r < inputs.length) :
    (dist_all_to_all inputs s).getD r [] = recvRows (chunkMatrix s inputs) r := by
  exact getD_map_range _ _ _ _ hr

/-- Uneven all-to-all round trip: running `dist_all_to_all` and then running
it again with the transposed (role-swapped) split-size lists returns every
rank's original rows, provided each rank's list has one entry per rank, sums
to its row count, and the out lists are the transpose of the in lists. -/
theorem dist_all_to_all_roundtrip {α : Type} (inputs : List (List α))
    (inS outS : List (List Nat))
    (hin : inS.length = inputs.length)
    (hout : outS.length = inputs.length)
    (hlen : ∀ r, r < inputs.length → (inS.getD r []).length = inputs.length)
    (hlen2 : ∀ r, r < inputs.length → (outS.getD r []).length = inputs.length)
    (hsum : ∀ r, r < inputs.length → (inS.getD r []).sum = (inputs.getD r []).length)
    (htrans : ∀ r, r < inputs.length → ∀ j, j < inputs.length →
      (outS.getD r []).getD j 0 = (inS.getD j []).getD r 0) :
    dist_all_to_all (dist_all_to_all inputs inS) outS = inputs := by
  set W := inputs.length with hWdef
  set M := chunkMatrix inS inputs with hMdef
  have hMlen : M.length = W := by
    rw [hMdef]; unfold chunkMatrix; rw [List.length_zipWith, hin]; exact Nat.min_self W
  have hMget : ∀ r, r < W → M.getD r [] =
      splitWithSizes (inS.getD r []) (inputs.getD r []) := by
    intro r hr
    rw [hMdef]
    exact getD_zipWith_in splitWithSizes inS inputs r [] [] []
      (by rw [hin]; exact hr) hr
  have hMrows : ∀ r, r < W → (M.getD r []).length = W := by
    intro r hr
    rw [hMget r hr, length_splitWithSizes]
    exact hlen r hr
  have hMmaplen : ∀ r, r < W → (M.getD r []).map List.length = inS.getD r [] := by
    intro r hr
    rw [hMget r hr]
    exact map_length_splitWithSizes _ _ (hsum r hr)
  have hMflat : ∀ r, r < W → (M.getD r []).flatten = inputs.getD r [] := by
    intro r hr
    rw [hMget r hr]
    exact join_splitWithSizes _ _ (hsum r hr)
  have hpiece : ∀ i j, i < W → j < W →
      ((M.getD i []).getD j []).length = (inS.getD i []).getD j 0 := by
    intro i j hi hj
    have hj1 : j < (M.getD i []).length := by rw [hMrows i hi]; exact hj
    have e1 : ((M.getD i []).map List.length).getD j 0 = (inS.getD i []).getD j 0 := by
      rw [hMmaplen i hi]
    rw [← e1, getD_map_in List.length (M.getD i []) j [] 0 hj1]
  set Y := dist_all_to_all inputs inS with hYdef
  have hYlen : Y.length = W := length_dist_all_to_all inputs inS
  have hYget : ∀ r, r < W → Y.getD r [] = recvRows M r := by
    intro r hr
    rw [hYdef, getD_dist_all_to_all inputs inS r hr, ← hMdef]
  have hsizes : ∀ j, j < W →
      outS.getD j [] = (M.map (fun chunks => chunks.getD j [])).map List.length := by
    intro j hj
    apply ext_getD _ _ 0
    · rw [hlen2 j hj, List.length_map, List.length_map, hMlen]
    · intro i hi
      have hiW : i < W := by rw [hlen2 j hj] at hi; exact hi
      have hiM : i < M.length := by rw [hMlen]; exact hiW
      have hiMm : i < (M.map (fun chunks => chunks.getD j [])).length := by
        rw [List.length_map]; exact hiM
      rw [htrans j hj i hiW,
        getD_map_in List.length (M.map (fun chunks => chunks.getD j [])) i [] 0 hiMm,
        getD_map_in (fun chunks => chunks.getD j []) M i [] [] hiM]
      exact (hpiece i j hiW hj).symm
  have hsplitY : ∀ j, j < W →
      splitWithSizes (outS.getD j []) (Y.getD j []) =
        M.map (fun chunks => chunks.getD j []) := by
    intro j hj
    rw [hYget j hj, hsizes j hj]
    exact splitWithSizes_join _
  apply ext_getD _ _ []
  · rw [length_dist_all_to_all, hYlen]
  · intro r hr
    have hrW : r < W := by
      rw [length_dist_all_to_all, hYlen] at hr; exact hr
    have hrY : r < Y.length := by rw [hYlen]; exact hrW
    rw [getD_dist_all_to_all Y outS r hrY]
    unfold recvRows
    have hcol : (chunkMatrix outS Y).map (fun chunks => chunks.getD r []) =
        M.getD r [] := by
      apply ext_getD _ _ []
      · rw [List.length_map]
        unfold chunkMatrix
        rw [List.length_zipWith, hout, hYlen, Nat.min_self, hMrows r hrW]
      · intro j hjlen
        have hjW : j < W := by
          rw [List.length_map] at hjlen
          unfold chunkMatrix at hjlen
          rw [List.length_zipWith, hout, hYlen, Nat.min_self] at hjlen
          exact hjlen
        have hjC : j < (chunkMatrix outS Y).length := by
          unfold chunkMatrix
          rw [List.length_zipWith, hout, hYlen, Nat.min_self]
          exact hjW
        rw [getD_map_in (fun chunks => chunks.getD r []) (chunkMatrix outS Y) j [] [] hjC]
        unfold chunkMatrix
        rw [getD_zipWith_in splitWithSizes outS Y j [] [] []
          (by rw [hout]; exact hjW) (by rw [hYlen]; exact hjW)]
        rw [hsplitY j hjW]
        exact getD_map_in (fun chunks => chunks.getD j []) M r [] [] (by rw [hMlen]; exact hrW)
    rw [hcol]
    exact hMflat r hrW

theorem getD_replicate_in {α : Type} (n i : Nat) (a d : α) (h : i < n) :
    (List.replicate n a).getD i d = a := by
  rw [List.getD_eq_getElem _ _ (by rw [List.length_replicate]; exact h),
    List.getElem_replicate]

/-! ## AllToAllUneven (torch.autograd.Function), group level -/

/-- `AllToAllUneven.forward` at group level: saves the split lists in the
autograd context and runs `_all_to_all(inputs, input_split_sizes,
output_split_sizes, group)`; the rows every rank receives are
`dist_all_to_all` of the inputs under the input split-size lists. -/
def AllToAllUneven_forward {α : Type} (inputs : List (List α))
    (input_split_sizes output_split_sizes : List (List Nat)) : List (List α) :=
  dist_all_to_all inputs input_split_sizes

/-- `AllToAllUneven.backward` at group level: each rank calls
`_all_to_all(grad, ctx.output_split_sizes, ctx.input_split_sizes, ctx.group)`,
the same primitive with the two split-size lists' roles swapped, so the
gradients are sent according to the saved output split-size lists. -/
def AllToAllUneven_backward {α : Type} (grad_outputs : List (List α))
    (input_split_sizes output_split_sizes : List (List Nat)) : List (List α) :=
  dist_all_to_all grad_outputs output_split_sizes

/-- C3: `AllToAllUneven.backward` invokes the uneven all-to-all with the
input/output split-size roles swapped, and the forward followed by the
role-swapped call reconstructs every rank's rows exactly, for valid
non-negative split-size lists (one entry per rank, input sizes summing to the
rank's row count, output sizes matching what peers send). -/
theorem allToAllUneven_backward_roundtrip {α : Type} (inputs : List (List α))
    (inS outS : List (List Nat))
    (hin : inS.length = inputs.length)
    (hout : outS.length = inputs.length)
    (hlen : ∀ r, r < inputs.length → (inS.getD r []).length = inputs.length)
    (hlen2 : ∀ r, r < inputs.length → (outS.getD r []).length = inputs.length)
    (hsum : ∀ r, r < inputs.length → (inS.getD r []).sum = (inputs.getD r []).length)
    (htrans : ∀ r, r < inputs.length → ∀ j, j < inputs.length →
      (outS.getD r []).getD j 0 = (inS.getD j []).getD r 0) :
    (∀ g : List (List α), AllToAllUneven_backward g inS outS = dist_all_to_all g outS) ∧
    AllToAllUneven_backward (AllToAllUneven_forward inputs inS outS) inS outS = inputs := by
  refine ⟨fun g => rfl, ?_⟩
  exact dist_all_to_all_roundtrip inputs inS outS hin hout hlen hlen2 hsum htrans

/-- Witness for C3: two ranks, rows `[0,1]` and `[2]`, split lists
`[[1,1],[1,0]]` with their transpose `[[1,1],[1,0]]`. -/
theorem allToAllUneven_backward_roundtrip_witness :
    (([[1, 1], [1, 0]] : List (List Nat)).length =
      ([[0, 1], [2]] : List (List Nat)).length) ∧
    (∀ r, r < ([[0, 1], [2]] : List (List Nat)).length →
      (([[1, 1], [1, 0]] : List (List Nat)).getD r []).sum =
        (([[0, 1], [2]] : List (List Nat)).getD r []).length) ∧
    AllToAllUneven_backward
      (AllToAllUneven_forward ([[0, 1], [2]] : List (List Nat))
        [[1, 1], [1, 0]] [[1, 1], [1, 0]])
      [[1, 1], [1, 0]] [[1, 1], [1, 0]] = [[0, 1], [2]] :=
  ⟨by decide, by decide,
    (allToAllUneven_backward_roundtrip [[0, 1], [2]] [[1, 1], [1, 0]] [[1, 1], [1, 0]]
      (by decide) (by decide) (by decide) (by decide) (by decide) (by decide)).2⟩

/-! ## AllToAll with equal shards (torch.autograd.Function) -/

/-- Equal-shard `dist.all_to_all_single` (no split-size lists): every rank's
rows fall into `world_size` equal contiguous chunks. -/
def dist_all_to_all_equal {α : Type} (inputs : List (List α)) : List (List α) :=
  dist_all_to_all inputs
    (inputs.map (fun x => List.replicate inputs.length (x.length / inputs.length)))

/-- `AllToAll.forward` at group level: making the input contiguous is
value-irrelevant; with world size 1 the input is returned untouched (no
communication), otherwise `dist.all_to_all_single` runs on the group. -/
def AllToAll_forward {α : Type} (inputs : List (List α)) : List (List α) :=
  if inputs.length = 1 then inputs else dist_all_to_all_equal inputs

/-- `AllToAll.backward`: the same AllToAll forward applied to the incoming
gradients. -/
def AllToAll_backward {α : Type} (grad_outputs : List (List α)) : List (List α) :=
  AllToAll_forward grad_outputs

/-- Two equal-shard passes cancel when every rank holds `world_size * k`
rows. -/
theorem dist_all_to_all_equal_roundtrip {α : Type} (inputs : List (List α)) (k : Nat)
    (hWpos : 0 < inputs.length)
    (hk : ∀ r, r < inputs.length → (inputs.getD r []).length = inputs.length * k) :
    dist_all_to_all_equal (dist_all_to_all_equal inputs) = inputs := by
  set W := inputs.length with hWdef
  set inS := inputs.map (fun x => List.replicate W (x.length / W)) with hinSdef
  have hinlen : inS.length = W := by rw [hinSdef, List.length_map]
  have hinS_r : ∀ r, r < W → inS.getD r [] = List.replicate W k := by
    intro r hr
    rw [hinSdef, getD_map_in (fun x => List.replicate W (x.length / W)) inputs r [] [] hr,
      hk r hr, Nat.mul_div_cancel_left k hWpos]
  rw [show dist_all_to_all_equal inputs = dist_all_to_all inputs inS from rfl]
  set Y := dist_all_to_all inputs inS with hYdef
  have hYlen : Y.length = W := length_dist_all_to_all inputs inS
  set outS := Y.map (fun y => List.replicate W (y.length / W)) with houtSdef
  have hsecond : dist_all_to_all_equal Y = dist_all_to_all Y outS := by
    unfold dist_all_to_all_equal
    rw [hYlen]
  have hchunklen : ∀ r, r < W → ∀ j, j < W →
      (((chunkMatrix inS inputs).getD j []).getD r []).length = k := by
    intro r hr j hj
    have hjS : j < inS.length := by rw [hinlen]; exact hj
    rw [show chunkMatrix inS inputs = List.zipWith splitWithSizes inS inputs from rfl,
      getD_zipWith_in splitWithSizes inS inputs j [] [] [] hjS hj]
    have hmaplen : (splitWithSizes (inS.getD j []) (inputs.getD j [])).map List.length
        = List.replicate W k := by
      rw [hinS_r j hj]
      apply map_length_splitWithSizes
      rw [List.sum_replicate, smul_eq_mul, hk j hj]
    have hrlen : r < (splitWithSizes (inS.getD j []) (inputs.getD j [])).length := by
      rw [length_splitWithSizes, hinS_r j hj, List.length_replicate]; exact hr
    have hstep := getD_map_in List.length
      (splitWithSizes (inS.getD j []) (inputs.getD j [])) r [] 0 hrlen
    rw [hmaplen] at hstep
    rw [← hstep, getD_replicate_in W r k 0 hr]
  have hYr : ∀ r, r < W → (Y.getD r []).length = W * k := by
    intro r hr
    rw [hYdef, getD_dist_all_to_all inputs inS r hr]
    unfold recvRows
    rw [List.length_flatten]
    have hCMlen : (chunkMatrix inS inputs).length = W := by
      rw [show chunkMatrix inS inputs = List.zipWith splitWithSizes inS inputs from rfl,
        List.length_zipWith, hinlen, Nat.min_self]
    have hrepl : ((chunkMatrix inS inputs).map
        (fun chunks => chunks.getD r [])).map List.length = List.replicate W k := by
      apply ext_getD _ _ 0
      · rw [List.length_map, List.length_map, hCMlen, List.length_replicate]
      · intro j hj
        have hjW : j < W := by
          rw [List.length_map, List.length_map, hCMlen] at hj; exact hj
        have hjC : j < (chunkMatrix inS inputs).length := by rw [hCMlen]; exact hjW
        have hjCm : j < ((chunkMatrix inS inputs).map
            (fun chunks => chunks.getD r [])).length := by
          rw [List.length_map]; exact hjC
        rw [getD_map_in List.length _ j [] 0 hjCm,
          getD_map_in (fun chunks => chunks.getD r []) _ j [] [] hjC,
          hchunklen r hr j hjW, getD_replicate_in W j k 0 hjW]
    rw [hrepl, List.sum_replicate, smul_eq_mul]
  have houtS_r : ∀ r, r < W → outS.getD r [] = List.replicate W k := by
    intro r hr
    have hrY : r < Y.length := by rw [hYlen]; exact hr
    rw [houtSdef, getD_map_in (fun y => List.replicate W (y.length / W)) Y r [] [] hrY,
      hYr r hr, Nat.mul_div_cancel_left k hWpos]
  rw [hsecond]
  refine dist_all_to_all_roundtrip inputs inS outS hinlen ?_ ?_ ?_ ?_ ?_
  · rw [houtSdef, List.length_map, hYlen]
  · intro r hr
    rw [hinS_r r hr, List.length_replicate]
  · intro r hr
    rw [houtS_r r hr, List.length_replicate]
  · intro r hr
    rw [hinS_r r hr, List.sum_replicate, smul_eq_mul, hk r hr]
  · intro r hr j hj
    rw [houtS_r r hr, hinS_r j hj,
      getD_replicate_in W j k 0 hj, getD_replicate_in W r k 0 hr]

/-- C4: `AllToAll` (equal shards) is self-adjoint — the forward followed by
the backward over the same group returns every rank's rows exactly when every
rank holds the same number `world_size * k` of rows — and with world size 1
the forward is a no-op returning the input without communication. -/
theorem allToAll_self_adjoint {α : Type} (inputs : List (List α)) (k : Nat)
    (h : ∀ x ∈ inputs, x.length = inputs.length * k) :
    AllToAll_backward (AllToAll_forward inputs) = inputs ∧
    (inputs.length = 1 → AllToAll_forward inputs = inputs) := by
  have hnoop : inputs.length = 1 → AllToAll_forward inputs = inputs := by
    intro h1
    unfold AllToAll_forward
    rw [if_pos h1]
  refine ⟨?_, hnoop⟩
  by_cases hW1 : inputs.length = 1
  · rw [hnoop hW1]
    unfold AllToAll_backward
    exact hnoop hW1
  · by_cases hW0 : inputs.length = 0
    · have hnil : inputs = [] := List.eq_nil_of_length_eq_zero hW0
      subst hnil
      rfl
    · have hWpos : 0 < inputs.length := Nat.pos_of_ne_zero hW0
      have hk : ∀ r, r < inputs.length → (inputs.getD r []).length = inputs.length * k := by
        intro r hr
        refine h _ ?_
        rw [List.getD_eq_getElem _ _ hr]
        exact List.getElem_mem hr
      have hfwd : AllToAll_forward inputs = dist_all_to_all_equal inputs := by
        unfold AllToAll_forward; rw [if_neg hW1]
      have hlenY : (dist_all_to_all_equal inputs).length = inputs.length := by
        unfold dist_all_to_all_equal; exact length_dist_all_to_all _ _
      have hbwd : AllToAll_backward (dist_all_to_all_equal inputs) =
          dist_all_to_all_equal (dist_all_to_all_equal inputs) := by
        unfold AllToAll_backward AllToAll_forward
        rw [if_neg (by rw [hlenY]; exact hW1)]
      rw [hfwd, hbwd]
      exact dist_all_to_all_equal_roundtrip inputs k hWpos hk

/-- Witness for C4: two ranks, two rows each. -/
theorem allToAll_self_adjoint_witness :
    (∀ x ∈ ([[0, 1], [2, 3]] : List (List Nat)),
      x.length = ([[0, 1], [2, 3]] : List (List Nat)).length * 1) ∧
    AllToAll_backward (AllToAll_forward ([[0, 1], [2, 3]] : List (List Nat))) =
      [[0, 1], [2, 3]] :=
  ⟨by decide, (allToAll_self_adjoint [[0, 1], [2, 3]] 1 (by decide)).1⟩

/-! ## Rank-local tensor model -/

/-- A rank-local tensor: row-major shape, flat rational data, and the
autograd `requires_grad` flag. -/
structure Tensor where
  shape : List Nat
  data : List ℚ
  requires_grad : Bool
deriving DecidableEq

/-- `torch.Tensor.squeeze(0)`: the leading axis is removed exactly when it
has size 1; any other tensor is returned unchanged. -/
def Tensor.squeeze0 (t : Tensor) : Tensor :=
  if t.shape.headD 0 = 1 then { t with shape := t.shape.tail } else t

/-- Follows the spec's words for C2: "returns the input with its leading
axis removed". -/
def specRemoveLeadingAxis (t : Tensor) : Tensor :=
  { t with shape := t.shape.drop 1 }

/-- An opaque communication-group handle; `dist.get_world_size(group)`,
`group.size()` and `group.rank()` observe it. -/
structure ProcessGroup where
  size : Nat
  rank : Nat
deriving DecidableEq

/-- `ReduceScatter.forward`, rank-local.  With world size 1 it returns
`inputs.squeeze(0)` at once, before any contiguity fix-up or communication.
Otherwise the output buffer has shape `inputs.shape[1:]` and is filled by the
external `dist.reduce_scatter` transport, abstracted as `comm`.  The `None`
overlap handle is not modelled. -/
def ReduceScatter_forward (comm : Tensor → List ℚ) (inputs : Tensor)
    (world_size : Nat) : Tensor :=
  if world_size = 1 then inputs.squeeze0
  else { shape := inputs.shape.drop 1, data := comm inputs, requires_grad := false }

/-- C2 counterexample: with world size 1 a tensor whose leading axis has
size 2 comes back unchanged from `ReduceScatter.forward`; its leading axis is
not removed, contradicting the claim for that input. -/
theorem reduceScatter_ws1_counterexample :
    ReduceScatter_forward (fun _ => []) ⟨[2], [3, 4], true⟩ 1 = ⟨[2], [3, 4], true⟩ ∧
    ReduceScatter_forward (fun _ => []) ⟨[2], [3, 4], true⟩ 1 ≠
      specRemoveLeadingAxis ⟨[2], [3, 4], true⟩ := by
  constructor <;> decide

/-- C2 amended: with world size 1, `ReduceScatter.forward` performs no
communication and returns `inputs.squeeze(0)`: the input with its leading
axis removed when that axis has size 1, and the input unchanged otherwise. -/
theorem reduceScatter_ws1_squeeze (comm : Tensor → List ℚ) (t : Tensor) :
    ReduceScatter_forward comm t 1 = t.squeeze0 ∧
    (t.shape.headD 0 = 1 → t.squeeze0 = specRemoveLeadingAxis t) ∧
    (t.shape.headD 0 ≠ 1 → t.squeeze0 = t) := by
  refine ⟨by unfold ReduceScatter_forward; rw [if_pos rfl], ?_, ?_⟩
  · intro h1
    unfold Tensor.squeeze0 specRemoveLeadingAxis
    rw [if_pos h1, List.drop_one]
  · intro h2
    unfold Tensor.squeeze0
    rw [if_neg h2]

/-- Witness for the amended C2 at a tensor of shape `[1, 2]`. -/
theorem reduceScatter_ws1_squeeze_witness :
    (([1, 2] : List Nat).headD 0 = 1) ∧
    ReduceScatter_forward (fun _ => []) ⟨[1, 2], [5, 6], false⟩ 1 =
      Tensor.squeeze0 ⟨[1, 2], [5, 6], false⟩ ∧
    Tensor.squeeze0 ⟨[1, 2], [5, 6], false⟩ =
      specRemoveLeadingAxis ⟨[1, 2], [5, 6], false⟩ :=
  ⟨by decide, (reduceScatter_ws1_squeeze (fun _ => []) _).1,
    (reduceScatter_ws1_squeeze (fun _ => []) ⟨[1, 2], [5, 6], false⟩).2.1 (by decide)⟩

/-! ## Tensor-parallel shard/unshard entry points -/

/-- The deadlock-avoidance assertion message shared by `all_to_all_uneven`,
`gather_tokens` and `drop_tokens`. -/
def requiresGradMsg : String :=
  "Input must require grad to assure that backward is executed, otherwise it might hang the program."

/-- The `_drop_tokens` divisibility assertion message. -/
def notDivisibleMsg : String :=
  "input dimension is not divisible by tensor parallel world size"

/-- The Python error raised because `gather_tokens` passes only
`(input_, dim)` to `_GatherTokens.apply` while `_GatherTokens.forward`
requires `(input_, dim, tp_group)`. -/
def missingTpGroupMsg : String :=
  "TypeError: forward() missing 1 required positional argument: tp_group"

/-- Product of the entries of a shape list. -/
def listProd (l : List Nat) : Nat := l.foldr (· * ·) 1

/-- `torch.narrow(input_, dim, start, length)` on flat row-major data. -/
def Tensor.narrow (t : Tensor) (dim start len : Nat) : Tensor :=
  let inner := listProd (t.shape.drop (dim + 1))
  let dimsz := t.shape.getD dim 0
  let outer := listProd (t.shape.take dim)
  { shape := t.shape.set dim len,
    data := (List.range outer).flatMap
      (fun o => (t.data.drop (o * dimsz * inner + start * inner)).take (len * inner)),
    requires_grad := t.requires_grad }

/-- `_drop_tokens`: divide a tensor among the tensor-parallel ranks; the
divisibility assertion surfaces as a precondition error. -/
def _drop_tokens (input_ : Tensor) (dim : Nat) (tp_group : ProcessGroup) :
    Except String Tensor :=
  let total_chunks := tp_group.size
  let this_chunk := tp_group.rank
  if input_.shape.getD dim 0 % total_chunks ≠ 0 then .error notDivisibleMsg
  else
    let chunk_size := input_.shape.getD dim 0 / total_chunks
    .ok (input_.narrow dim (this_chunk * chunk_size) chunk_size)

/-- `gather_tokens` entry point.  With tp size 1 the input itself is returned
before any check; otherwise the requires-grad assertion runs, and then line
535 calls `_GatherTokens.apply(input_, dim)` with only two arguments while
`_GatherTokens.forward(ctx, input_, dim, tp_group)` requires three, so Python
raises a TypeError before any collective communication starts. -/
def gather_tokens (input_ : Tensor) (dim : Nat) (tp_group : ProcessGroup) :
    Except String Tensor :=
  if tp_group.size = 1 then .ok input_
  else if input_.requires_grad = false then .error requiresGradMsg
  else .error missingTpGroupMsg

/-- `drop_tokens` entry point: identity for tp size 1, then the
requires-grad assertion, then `_DropTokens.apply(input_, dim, tp_group)`,
whose forward runs `_drop_tokens`. -/
def drop_tokens (input_ : Tensor) (dim : Nat) (tp_group : ProcessGroup) :
    Except String Tensor :=
  if tp_group.size = 1 then .ok input_
  else if input_.requires_grad = false then .error requiresGradMsg
  else _drop_tokens input_ dim tp_group

/-- `all_to_all_uneven` entry point: the requires-grad assertion runs before
`AllToAllUneven.apply`; `recv` stands for the rows the external transport
delivers into the output buffer, whose leading dimension `_all_to_all` sets
to `sum(output_split_sizes)`. -/
def all_to_all_uneven (inputs : Tensor)
    (input_split_sizes output_split_sizes : List Nat) (group : ProcessGroup)
    (recv : List ℚ) : Except String Tensor :=
  if inputs.requires_grad = false then .error requiresGradMsg
  else .ok { shape := inputs.shape.set 0 output_split_sizes.sum,
             data := recv, requires_grad := inputs.requires_grad }

/-- C1: on a gradient-tracking input and a tensor-parallel group of size 2,
`gather_tokens` raises the TypeError caused by the missing `tp_group`
argument in its `_GatherTokens.apply(input_, dim)` call, instead of
all-gathering along `dim`. -/
theorem gather_tokens_missing_arg :
    gather_tokens ⟨[2], [1, 2], true⟩ 0 ⟨2, 0⟩ = .error missingTpGroupMsg := rfl

/-- C6: an input not flagged for gradient tracking is rejected with the
checked precondition error instead of reaching the collective: always by
`all_to_all_uneven`, and by `gather_tokens` and `drop_tokens` whenever the
tensor-parallel group is larger than one (the case in which they would
communicate). -/
theorem no_grad_inputs_fail (t : Tensor) (h : t.requires_grad = false) :
    (∀ iss oss g recv, all_to_all_uneven t iss oss g recv = .error requiresGradMsg) ∧
    (∀ dim g, 1 < g.size → gather_tokens t dim g = .error requiresGradMsg) ∧
    (∀ dim g, 1 < g.size → drop_tokens t dim g = .error requiresGradMsg) := by
  refine ⟨?_, ?_, ?_⟩
  · intro iss oss g recv
    unfold all_to_all_uneven
    rw [if_pos h]
  · intro dim g hg
    unfold gather_tokens
    rw [if_neg (by omega : ¬g.size = 1), if_pos h]
  · intro dim g hg
    unfold drop_tokens
    rw [if_neg (by omega : ¬g.size = 1), if_pos h]

/-- Witness for C6 at a concrete untracked tensor and a group of size 2. -/
theorem no_grad_inputs_fail_witness :
    ((⟨[2], [1, 2], false⟩ : Tensor).requires_grad = false) ∧
    all_to_all_uneven ⟨[2], [1, 2], false⟩ [1, 1] [1, 1] ⟨2, 0⟩ [7] =
      .error requiresGradMsg ∧
    gather_tokens ⟨[2], [1, 2], false⟩ 0 ⟨2, 0⟩ = .error requiresGradMsg ∧
    drop_tokens ⟨[2], [1, 2], false⟩ 0 ⟨2, 0⟩ = .error requiresGradMsg :=
  ⟨rfl, (no_grad_inputs_fail _ rfl).1 [1, 1] [1, 1] ⟨2, 0⟩ [7],
    (no_grad_inputs_fail _ rfl).2.1 0 ⟨2, 0⟩ (by decide),
    (no_grad_inputs_fail _ rfl).2.2 0 ⟨2, 0⟩ (by decide)⟩

/-- C9: with a size-1 tensor-parallel group, `gather_tokens` and
`drop_tokens` return the input tensor itself before the requires-grad
assertion is ever reached, so untracked inputs are accepted in exactly this
case. -/
theorem tp_size_one_identity (t : Tensor) (dim : Nat) (g : ProcessGroup)
    (h : g.size = 1) :
    gather_tokens t dim g = .ok t ∧ drop_tokens t dim g = .ok t := by
  constructor
  · unfold gather_tokens; rw [if_pos h]
  · unfold drop_tokens; rw [if_pos h]

/-- Witness for C9: a tensor with `requires_grad = False` is accepted
unchanged by both entry points when the group size is 1. -/
theorem tp_size_one_identity_witness :
    ((⟨[2], [1, 2], false⟩ : Tensor).requires_grad = false) ∧
    gather_tokens ⟨[2], [1, 2], false⟩ 0 ⟨1, 0⟩ = .ok ⟨[2], [1, 2], false⟩ ∧
    drop_tokens ⟨[2], [1, 2], false⟩ 0 ⟨1, 0⟩ = .ok ⟨[2], [1, 2], false⟩ :=
  ⟨rfl, (tp_size_one_identity _ 0 ⟨1, 0⟩ rfl).1, (tp_size_one_identity _ 0 ⟨1, 0⟩ rfl).2⟩

/-! ## Gradient scalers

Gradient tensors are elementwise values; the scalings are exact rational
arithmetic (the spec's "net scale factor 1" is exact arithmetic). -/

/-- The `DPGradScalerIn/Out.forward` assertion message. -/
def noActivatedExpertsMsg : String := "shouldn't be called when no expert is activated"

/-- `EPGradScalerIn.forward`: stores `ep_size` in the context and returns
the inputs unchanged. -/
def EPGradScalerIn_forward (inputs : List ℚ) (ep_size : Int) : List ℚ := inputs

/-- `EPGradScalerIn.backward`: multiplies the incoming gradient by `ep_size`
unless `ep_size == 1`. -/
def EPGradScalerIn_backward (ep_size : Int) (grad : List ℚ) : List ℚ :=
  if ep_size ≠ 1 then grad.map (fun x => x * (ep_size : ℚ)) else grad

/-- `EPGradScalerOut.forward`: stores `ep_size` and returns the inputs
unchanged. -/
def EPGradScalerOut_forward (inputs : List ℚ) (ep_size : Int) : List ℚ := inputs

/-- `EPGradScalerOut.backward`: divides the incoming gradient by `ep_size`
unless `ep_size == 1`. -/
def EPGradScalerOut_backward (ep_size : Int) (grad : List ℚ) : List ℚ :=
  if ep_size ≠ 1 then grad.map (fun x => x / (ep_size : ℚ)) else grad

/-- `DPGradScalerIn.forward`: asserts `activated_experts != 0`, then returns
the inputs unchanged. -/
def DPGradScalerIn_forward (inputs : List ℚ) (moe_dp_size activated_experts : Int) :
    Except String (List ℚ) :=
  if activated_experts = 0 then .error noActivatedExpertsMsg else .ok inputs

/-- `DPGradScalerIn.backward`: multiplies the gradient in place by
`activated_experts / moe_dp_size` when `moe_dp_size != activated_experts`. -/
def DPGradScalerIn_backward (moe_dp_size activated_experts : Int) (grad : List ℚ) :
    List ℚ :=
  if moe_dp_size ≠ activated_experts then
    grad.map (fun x => x * ((activated_experts : ℚ) / (moe_dp_size : ℚ)))
  else grad

/-- `DPGradScalerOut.forward`: asserts `activated_experts != 0`, then
returns the inputs unchanged. -/
def DPGradScalerOut_forward (inputs : List ℚ) (moe_dp_size activated_experts : Int) :
    Except String (List ℚ) :=
  if activated_experts = 0 then .error noActivatedExpertsMsg else .ok inputs

/-- `DPGradScalerOut.backward`: multiplies the gradient in place by
`moe_dp_size / activated_experts` when `moe_dp_size != activated_experts`. -/
def DPGradScalerOut_backward (moe_dp_size activated_experts : Int) (grad : List ℚ) :
    List ℚ :=
  if moe_dp_size ≠ activated_experts then
    grad.map (fun x => x * ((moe_dp_size : ℚ) / (activated_experts : ℚ)))
  else grad

/-- C5 counterexample: at `ep_size = 0` and at `(dp_size, activated) =
(0, 1)` the backward compositions do not return the gradient `[1]`: the EP
pass multiplies by `0` and then divides by `0`, the DP pass divides by the
zero `dp_size` (in the Python code these produce `nan` or raise). -/
theorem gradScaler_zero_counterexample :
    EPGradScalerOut_backward 0 (EPGradScalerIn_backward 0 [1]) ≠ [1] ∧
    DPGradScalerOut_backward 0 1 (DPGradScalerIn_backward 0 1 [1]) ≠ [1] := by
  constructor
  · unfold EPGradScalerIn_backward EPGradScalerOut_backward
    norm_num
  · unfold DPGradScalerIn_backward DPGradScalerOut_backward
    norm_num

/-- C5 amended: for every gradient and nonzero `ep_size` the EP scaler
backwards compose to the identity, and for every pair with `dp_size` and
`activated_experts` both nonzero the DP scaler backwards compose to the
identity. -/
theorem gradScaler_compose_identity (g : List ℚ) (ep : Int) (hep : ep ≠ 0)
    (dp act : Int) (hdp : dp ≠ 0) (hact : act ≠ 0) :
    EPGradScalerOut_backward ep (EPGradScalerIn_backward ep g) = g ∧
    DPGradScalerOut_backward dp act (DPGradScalerIn_backward dp act g) = g := by
  constructor
  · by_cases h1 : ep = 1
    · subst h1
      unfold EPGradScalerIn_backward EPGradScalerOut_backward
      simp
    · unfold EPGradScalerIn_backward EPGradScalerOut_backward
      rw [if_pos h1, if_pos h1, List.map_map]
      have hq : (ep : ℚ) ≠ 0 := Int.cast_ne_zero.mpr hep
      have hcomp : ((fun x => x / (ep : ℚ)) ∘ fun x => x * (ep : ℚ)) = id := by
        funext x
        simp only [Function.comp_apply, id_eq]
        exact mul_div_cancel_right₀ x hq
      rw [hcomp, List.map_id]
  · by_cases h2 : dp = act
    · unfold DPGradScalerIn_backward DPGradScalerOut_backward
      rw [if_neg (not_not_intro h2), if_neg (not_not_intro h2)]
    · unfold DPGradScalerIn_backward DPGradScalerOut_backward
      rw [if_pos h2, if_pos h2, List.map_map]
      have hdq : (dp : ℚ) ≠ 0 := Int.cast_ne_zero.mpr hdp
      have haq : (act : ℚ) ≠ 0 := Int.cast_ne_zero.mpr hact
      have hcomp : ((fun x => x * ((dp : ℚ) / (act : ℚ))) ∘
          fun x => x * ((act : ℚ) / (dp : ℚ))) = id := by
        funext x
        simp only [Function.comp_apply, id_eq]
        field_simp
      rw [hcomp, List.map_id]

/-- Witness for the amended C5 at `g = [5]`, `ep_size = 2`,
`(dp_size, activated_experts) = (3, 1)`. -/
theorem gradScaler_compose_identity_witness :
    ((2 : Int) ≠ 0 ∧ (3 : Int) ≠ 0 ∧ (1 : Int) ≠ 0) ∧
    EPGradScalerOut_backward 2 (EPGradScalerIn_backward 2 [5]) = [5] ∧
    DPGradScalerOut_backward 3 1 (DPGradScalerIn_backward 3 1 [5]) = [5] :=
  ⟨⟨by decide, by decide, by decide⟩,
    (gradScaler_compose_identity [5] 2 (by decide) 3 1 (by decide) (by decide)).1,
    (gradScaler_compose_identity [5] 2 (by decide) 3 1 (by decide) (by decide)).2⟩

/-- C7: the DP scaler forwards fail on `activated_experts == 0` and
otherwise return the input unchanged. -/
theorem dpGradScaler_forward_spec (inputs : List ℚ) (dp act : Int) :
    (act = 0 → DPGradScalerIn_forward inputs dp act = .error noActivatedExpertsMsg ∧
      DPGradScalerOut_forward inputs dp act = .error noActivatedExpertsMsg) ∧
    (act ≠ 0 → DPGradScalerIn_forward inputs dp act = .ok inputs ∧
      DPGradScalerOut_forward inputs dp act = .ok inputs) := by
  constructor
  · intro h
    unfold DPGradScalerIn_forward DPGradScalerOut_forward
    rw [if_pos h]
    exact ⟨rfl, rfl⟩
  · intro h
    unfold DPGradScalerIn_forward DPGradScalerOut_forward
    rw [if_neg h]
    exact ⟨rfl, rfl⟩

/-- Witness for C7 at both a zero and a nonzero `activated_experts`. -/
theorem dpGradScaler_forward_spec_witness :
    ((0 : Int) = 0 ∧ DPGradScalerIn_forward [2] 4 0 = .error noActivatedExpertsMsg) ∧
    ((1 : Int) ≠ 0 ∧ DPGradScalerOut_forward [2] 4 1 = .ok [2]) :=
  ⟨⟨rfl, ((dpGradScaler_forward_spec [2] 4 0).1 rfl).1⟩,
    ⟨by decide, ((dpGradScaler_forward_spec [2] 4 1).2 (by decide)).2⟩⟩

/-! ## moe_cumsum -/

/-- `torch.cumsum(inputs, dim=0)` on an integer vector: inclusive prefix
sums. -/
def torchCumsum (inputs : List Int) : List Int :=
  (inputs.scanl (· + ·) 0).tail

/-- Result of `moe_cumsum`: either the external `cumsum_sub_one` kernel is
invoked on the inputs, or the fallback value `torch.cumsum(inputs, 0) - 1`
is computed locally. -/
inductive CumsumCall where
  | kernel (inputs : List Int) : CumsumCall
  | computed (value : List Int) : CumsumCall
deriving DecidableEq

/-- `moe_cumsum(inputs, use_kernel)`: the kernel runs only when `use_kernel`
and the size flag `(dim0 <= 1024) or (dim0 <= 2048 and dim0 % 2 == 0) or
(dim0 % 4 == 0)` both hold; otherwise `torch.cumsum(inputs, dim=0) - 1`. -/
def moe_cumsum (inputs : List Int) (use_kernel : Bool) : CumsumCall :=
  if (inputs.length ≤ 1024 ∨ (inputs.length ≤ 2048 ∧ inputs.length % 2 = 0) ∨
      inputs.length % 4 = 0) ∧ use_kernel = true then
    .kernel inputs
  else .computed ((torchCumsum inputs).map (fun x => x - 1))

/-- C10: `moe_cumsum` returns `torch.cumsum(inputs, 0) - 1` whenever
`use_kernel` is false or none of the three size conditions holds, and the
external `cumsum_sub_one` kernel is invoked only when `use_kernel` is true
and at least one size condition holds. -/
theorem moe_cumsum_spec (inputs : List Int) (use_kernel : Bool) :
    (use_kernel = false ∨
        (¬inputs.length ≤ 1024 ∧ ¬(inputs.length ≤ 2048 ∧ inputs.length % 2 = 0) ∧
          ¬inputs.length % 4 = 0) →
      moe_cumsum inputs use_kernel =
        .computed ((torchCumsum inputs).map (fun x => x - 1))) ∧
    (∀ xs, moe_cumsum inputs use_kernel = .kernel xs →
      use_kernel = true ∧ (inputs.length ≤ 1024 ∨
        (inputs.length ≤ 2048 ∧ inputs.length % 2 = 0) ∨ inputs.length % 4 = 0)) := by
  constructor
  · intro h
    have hn : ¬((inputs.length ≤ 1024 ∨ (inputs.length ≤ 2048 ∧ inputs.length % 2 = 0) ∨
        inputs.length % 4 = 0) ∧ use_kernel = true) := by
      rcases h with h | h
      · intro hc
        rw [h] at hc
        exact Bool.false_ne_true hc.2
      · intro hc
        rcases hc.1 with h1 | h1 | h1
        · exact h.1 h1
        · exact h.2.1 h1
        · exact h.2.2 h1
    unfold moe_cumsum
    rw [if_neg hn]
  · intro xs hx
    by_cases hcond : (inputs.length ≤ 1024 ∨ (inputs.length ≤ 2048 ∧
        inputs.length % 2 = 0) ∨ inputs.length % 4 = 0) ∧ use_kernel = true
    · exact ⟨hcond.2, hcond.1⟩
    · unfold moe_cumsum at hx
      rw [if_neg hcond] at hx
      exact CumsumCall.noConfusion hx

/-- Witness for C10: with `use_kernel = False` the fallback runs and
computes `cumsum([3, 5]) - 1 = [2, 7]`. -/
theorem moe_cumsum_spec_witness :
    moe_cumsum [3, 5] false = .computed ((torchCumsum [3, 5]).map (fun x => x - 1)) ∧
    (torchCumsum [3, 5]).map (fun x => x - 1) = [2, 7] :=
  ⟨(moe_cumsum_spec [3, 5] false).1 (Or.inl rfl), by decide⟩

/-! ## MoeDispatch / MoeCombine (element-type bookkeeping)

The row-scatter arithmetic lives in the external kernel provider
(`MOE_KERNEL`), so the kernel's four operations and the value part of dtype
casts are parameters; the properties proved below hold for every kernel and
every cast function. -/

/-- Torch element types appearing in the wrappers. -/
inductive DType where
  | float16 | bfloat16 | float32 | float64 | int32 | int64
deriving DecidableEq

/-- A tensor as the kernel wrappers see it: a shape, an element type, and an
opaque payload. -/
structure KTensor (V : Type) where
  shape : List Nat
  dtype : DType
  val : V

/-- `Tensor.to(dtype)`: `conv` is the framework's value conversion. -/
def KTensor.to {V : Type} (conv : V → DType → V) (t : KTensor V) (d : DType) :
    KTensor V :=
  { shape := t.shape, dtype := d, val := conv t.val d }

/-- The `if x.dtype != torch.float32: x = x.to(torch.float32)` pattern run
on every payload before a kernel call. -/
def promoteF32 {V : Type} (conv : V → DType → V) (t : KTensor V) : KTensor V :=
  if t.dtype ≠ DType.float32 then t.to conv DType.float32 else t

/-- The `if y.dtype != dtype: y = y.to(dtype)` pattern restoring the
caller's element type after a kernel call. -/
def restoreDType {V : Type} (conv : V → DType → V) (t : KTensor V) (d : DType) :
    KTensor V :=
  if t.dtype ≠ d then t.to conv d else t

/-- The external kernel provider (`MOE_KERNEL`) over a mask type `M` and a
destination-index type `I`. -/
structure MoeKernel (V M I : Type) where
  dispatch_forward : Nat → Nat → Nat → KTensor V → M → I → KTensor V
  dispatch_backward : Nat → Nat → Nat → KTensor V → M → I → KTensor V
  combine_forward : Nat → Nat → Nat → Nat → KTensor V → KTensor V → M → I → KTensor V
  combine_backward : Nat → Nat → Nat → Nat → KTensor V → KTensor V → KTensor V → M → I →
    KTensor V × KTensor V

/-- `MoeDispatch`'s saved context: mask, dest_idx, sizes and the caller's
dtype. -/
structure MoeDispatchCtx (M I : Type) where
  mask : M
  dest_idx : I
  s : Nat
  h : Nat
  ec : Nat
  dtype : DType

/-- `MoeDispatch.forward`: records `s`, `h` and the tokens' dtype, promotes
the tokens to float32, runs `MOE_KERNEL.dispatch_forward`, and casts the
result back to the recorded dtype when they differ. -/
def MoeDispatch_forward {V M I : Type} (conv : V → DType → V) (K : MoeKernel V M I)
    (tokens : KTensor V) (mask : M) (dest_idx : I) (ec : Nat) :
    KTensor V × MoeDispatchCtx M I :=
  let s := tokens.shape.getD 0 0
  let h := tokens.shape.getD 1 0
  let dtype := tokens.dtype
  let tokens := promoteF32 conv tokens
  let expert_input := K.dispatch_forward s ec h tokens mask dest_idx
  let expert_input := restoreDType conv expert_input dtype
  (expert_input,
    { mask := mask, dest_idx := dest_idx, s := s, h := h, ec := ec, dtype := dtype })

/-- `MoeDispatch.backward`: promotes the incoming gradient to float32, runs
`MOE_KERNEL.dispatch_backward`, and casts the token gradient back to the
dtype saved by the forward. -/
def MoeDispatch_backward {V M I : Type} (conv : V → DType → V) (K : MoeKernel V M I)
    (ctx : MoeDispatchCtx M I) (output_grad : KTensor V) : KTensor V :=
  let output_grad := promoteF32 conv output_grad
  let d_tokens := K.dispatch_backward ctx.s ctx.ec ctx.h output_grad ctx.mask ctx.dest_idx
  restoreDType conv d_tokens ctx.dtype

/-- `MoeCombine`'s saved context: the (promoted) expert tokens, the logits,
mask, dest_idx, sizes and the caller's dtype. -/
structure MoeCombineCtx (V M I : Type) where
  expert_tokens : KTensor V
  logits : KTensor V
  mask : M
  dest_idx : I
  s : Nat
  e : Nat
  c : Nat
  h : Nat
  dtype : DType

/-- `MoeCombine.forward`: asserts `logits.dtype == torch.float32`, promotes
the expert tokens to float32, runs `MOE_KERNEL.combine_forward`, casts the
output back to the expert tokens' dtype, and saves the promoted tensors. -/
def MoeCombine_forward {V M I : Type} (conv : V → DType → V) (K : MoeKernel V M I)
    (expert_tokens logits : KTensor V) (mask : M) (dest_idx : I) (ec : Nat) :
    Except String (KTensor V × MoeCombineCtx V M I) :=
  if logits.dtype ≠ DType.float32 then .error "assert logits.dtype == torch.float32"
  else
    let s := logits.shape.getD 0 0
    let e := logits.shape.getD 1 0
    let c := ec / e
    let h := (expert_tokens.shape.getLast?).getD 0
    let dtype := expert_tokens.dtype
    let expert_tokens := promoteF32 conv expert_tokens
    let output := K.combine_forward s e c h expert_tokens logits mask dest_idx
    let output := restoreDType conv output dtype
    .ok (output,
      { expert_tokens := expert_tokens, logits := logits, mask := mask,
        dest_idx := dest_idx, s := s, e := e, c := c, h := h, dtype := dtype })

/-- `MoeCombine.backward`: promotes the incoming gradient to float32, runs
`MOE_KERNEL.combine_backward`, and casts the expert-token gradient back to
the saved dtype; the logits gradient is returned as the kernel produced
it. -/
def MoeCombine_backward {V M I : Type} (conv : V → DType → V) (K : MoeKernel V M I)
    (ctx : MoeCombineCtx V M I) (tokens_grad : KTensor V) : KTensor V × KTensor V :=
  let tokens_grad := promoteF32 conv tokens_grad
  let pair := K.combine_backward ctx.s ctx.e ctx.c ctx.h tokens_grad ctx.expert_tokens
    ctx.logits ctx.mask ctx.dest_idx
  (restoreDType conv pair.1 ctx.dtype, pair.2)

theorem promoteF32_dtype {V : Type} (conv : V → DType → V) (t : KTensor V) :
    (promoteF32 conv t).dtype = DType.float32 := by
  unfold promoteF32
  by_cases h : t.dtype ≠ DType.float32
  · rw [if_pos h]; rfl
  · rw [if_neg h]
    exact not_not.mp h

theorem restoreDType_dtype {V : Type} (conv : V → DType → V) (t : KTensor V)
    (d : DType) : (restoreDType conv t d).dtype = d := by
  unfold restoreDType
  by_cases h : t.dtype ≠ d
  · rw [if_pos h]; rfl
  · rw [if_neg h]
    exact not_not.mp h

/-- C8: for every kernel and every cast function, each payload is promoted
to float32 before the kernel call, and every returned token payload carries
the caller's original element type: dispatch forward and backward return the
tokens' dtype, combine forward and backward return the expert tokens' dtype
(under the asserted float32 logits). -/
theorem moe_dtype_roundtrip {V M I : Type} (conv : V → DType → V) (K : MoeKernel V M I)
    (tokens expert_tokens logits g g2 : KTensor V) (mask : M) (dest_idx : I) (ec : Nat)
    (hlog : logits.dtype = DType.float32) :
    (∀ t : KTensor V, (promoteF32 conv t).dtype = DType.float32) ∧
    (MoeDispatch_forward conv K tokens mask dest_idx ec).1.dtype = tokens.dtype ∧
    (MoeDispatch_backward conv K
        (MoeDispatch_forward conv K tokens mask dest_idx ec).2 g).dtype = tokens.dtype ∧
    (∃ out ctx2,
      MoeCombine_forward conv K expert_tokens logits mask dest_idx ec = .ok (out, ctx2) ∧
      out.dtype = expert_tokens.dtype ∧
      (MoeCombine_backward conv K ctx2 g2).1.dtype = expert_tokens.dtype) := by
  refine ⟨promoteF32_dtype conv, ?_, ?_, ?_⟩
  · exact restoreDType_dtype conv _ _
  · exact restoreDType_dtype conv _ _
  · unfold MoeCombine_forward
    rw [if_neg (not_not_intro hlog)]
    refine ⟨_, _, rfl, ?_, ?_⟩
    · exact restoreDType_dtype conv _ _
    · exact restoreDType_dtype conv _ _

/-- A trivial kernel instance used only to instantiate the dtype theorem. -/
def demoKernel : MoeKernel Unit Unit Unit where
  dispatch_forward := fun _ _ _ t _ _ => t
  dispatch_backward := fun _ _ _ t _ _ => t
  combine_forward := fun _ _ _ _ t _ _ _ => t
  combine_backward := fun _ _ _ _ t et _ _ _ => (t, et)

/-- Witness for C8: float16 tokens keep float16 through dispatch under the
trivial kernel, with float32 logits discharging the assertion. -/
theorem moe_dtype_roundtrip_witness :
    (KTensor.dtype (V := Unit) ⟨[2, 2], DType.float32, ()⟩ = DType.float32) ∧
    (MoeDispatch_forward (fun v _ => v) demoKernel
        ⟨[2, 3], DType.float16, ()⟩ () () 4).1.dtype =
      KTensor.dtype (V := Unit) ⟨[2, 3], DType.float16, ()⟩ :=
  ⟨rfl,
    (moe_dtype_roundtrip (fun v _ => v) demoKernel ⟨[2, 3], DType.float16, ()⟩
      ⟨[4, 3], DType.bfloat16, ()⟩ ⟨[2, 2], DType.float32, ()⟩
      ⟨[1], DType.float64, ()⟩ ⟨[1], DType.int32, ()⟩ () () 4 rfl).2.1⟩

end MoeOp
